import Mathlib

/-!
Verification of the command interpreter of a PyQt terminal emulator
(`src/main.py`, class `TerminalWidget`).  The Python functions are embedded
shallowly: character strings become Lean `String` (a wrapper around
`List Char`), the host filesystem and the process table become explicit
oracle values passed to the embedded functions, and every embedded function
is a computable Lean `def` mirroring the Python control flow.
-/

/-- Python `s.startswith(p)`: `p.data` is a prefix of `s.data`.
Implemented by direct recursion over the character lists. -/
def prefCheck : List Char → List Char → Bool
  | [], _ => true
  | _ :: _, [] => false
  | a :: as, b :: bs => a = b && prefCheck as bs

/-- Python `s.startswith(p)` on strings. -/
def pyStartswith (s p : String) : Bool :=
  prefCheck p.data s.data

/-- Python `s[n:]`: drop the first `n` characters. -/
def pyDrop (n : Nat) (s : String) : String :=
  String.mk (s.data.drop n)

/-- Python `s.lower()` (ASCII, which is all the dispatcher compares). -/
def pyLower (s : String) : String :=
  String.mk (s.data.map Char.toLower)

/-- Python `s.strip()`: remove leading and trailing whitespace. -/
def pyStrip (s : String) : String :=
  String.mk (((s.data.dropWhile Char.isWhitespace).reverse.dropWhile
    Char.isWhitespace).reverse)

/-- Python `s.split()[0]` (or `""` when there is no token): the first
whitespace-delimited token of a line. -/
def firstTok (s : String) : String :=
  String.mk ((s.data.dropWhile Char.isWhitespace).takeWhile
    (fun ch => !ch.isWhitespace))

/-- Python `s.ljust(n)`: pad on the right with spaces to width `n`. -/
def ljust (s : String) (n : Nat) : String :=
  s ++ String.mk (List.replicate (n - s.data.length) ' ')

/-- Python `f"{v:8}"` for a number rendered as `str`: pad on the left with
spaces to width `n`. -/
def rjust (s : String) (n : Nat) : String :=
  String.mk (List.replicate (n - s.data.length) ' ') ++ s

/-- One line appended to the output pane.  `out` is a plain append;
`err` is an append whose text the source prefixes with `"Error:"` and the
UI renders as an error (spec: `isError = true`). -/
inductive OutLine where
  | out (s : String)
  | err (s : String)
  deriving DecidableEq, Repr

/-- The command routing decision of `TerminalWidget.execute_command`
(src/main.py lines 130-159): which handler the (already stripped,
non-empty) command line is sent to, with the argument string each handler
receives. -/
inductive Dispatch where
  | exitApp
  | help
  | cd (path : String)
  | pwd
  | ls (line : String)
  | mkdir (path : String)
  | rm (path : String)
  | cp (line : String)
  | mv (line : String)
  | clear
  | history
  | ps
  | top
  | external (line : String)
  deriving DecidableEq, Repr

/-- The `if/elif` chain of `execute_command` (src/main.py 130-159), applied
to the stripped command line.  Note the source's mix of matching styles:
whole-line case-insensitive equality for `exit`/`help`, `startswith`
of `"verb "` (or exact equality with the bare verb, only for `cd`
and `ls`) for the argument-taking verbs, and exact whole-line equality
for the zero-argument verbs. -/
def dispatch (command : String) : Dispatch :=
  cond (pyLower command == "exit") .exitApp <|
  cond (pyLower command == "help") .help <|
  cond (pyStartswith command "cd ") (.cd (pyDrop 3 command)) <|
  cond (command == "cd") (.cd "") <|
  cond (command == "pwd") .pwd <|
  cond (command == "ls" || pyStartswith command "ls ") (.ls command) <|
  cond (pyStartswith command "mkdir ") (.mkdir (pyDrop 6 command)) <|
  cond (pyStartswith command "rm ") (.rm (pyDrop 3 command)) <|
  cond (pyStartswith command "cp ") (.cp command) <|
  cond (pyStartswith command "mv ") (.mv command) <|
  cond (command == "clear") .clear <|
  cond (command == "history") .history <|
  cond (command == "ps") .ps <|
  cond (command == "top") .top <|
  .external command

/-- The verb table of the spec (§4.3). -/
def builtinVerbs : List String :=
  ["exit", "help", "cd", "pwd", "ls", "mkdir", "rm", "cp", "mv",
   "clear", "history", "ps", "top"]

/-- Modelled from the spec's words (§4.3, for comparison with `dispatch`):
"Each verb is dispatched by exact first-token match (case-insensitive only
for `exit`/`help`; all others case-sensitive lowercase)"; returns the verb
the spec says the line is dispatched to, or `none` for delegation to the
External Command Executor. -/
def dispatchSpecVerb (command : String) : Option String :=
  if pyLower (firstTok command) = "exit" then some "exit"
  else if pyLower (firstTok command) = "help" then some "help"
  else if builtinVerbs.contains (firstTok command) then some (firstTok command)
  else none

/-- The verb a `Dispatch` value names, `none` for the external executor. -/
def dispatchVerb : Dispatch → Option String
  | .exitApp => some "exit"
  | .help => some "help"
  | .cd _ => some "cd"
  | .pwd => some "pwd"
  | .ls _ => some "ls"
  | .mkdir _ => some "mkdir"
  | .rm _ => some "rm"
  | .cp _ => some "cp"
  | .mv _ => some "mv"
  | .clear => some "clear"
  | .history => some "history"
  | .ps => some "ps"
  | .top => some "top"
  | .external _ => none

/-- Quote state of the POSIX `shlex` word splitter. -/
inductive QMode where
  | plain
  | single
  | double
  deriving DecidableEq, Repr

/-- The POSIX state machine of Python's `shlex.split` restricted to what
`shlex.split(line)` uses (`posix=True`, `whitespace_split=True`, comments
off): single quotes are fully literal, inside double quotes a backslash
escapes only `"` and `\` (and is otherwise kept literally), outside quotes
a backslash escapes any character, and whitespace ends a word.  Arguments:
remaining characters, quote state, whether a word is in progress, the
characters of the word so far (reversed).  An unterminated quote or a
trailing backslash raises `ValueError`, modelled as `Except.error` with
the exception's message. -/
def shlexRun : List Char → QMode → Bool → List Char → Except String (List String)
  | [], .plain, inWord, tok =>
    .ok (if inWord then [String.mk tok.reverse] else [])
  | [], .single, _, _ => .error "No closing quotation"
  | [], .double, _, _ => .error "No closing quotation"
  | c :: rest, .plain, inWord, tok =>
    if c.isWhitespace then
      if inWord then
        (shlexRun rest .plain false []).map (fun ts => String.mk tok.reverse :: ts)
      else
        shlexRun rest .plain false []
    else if c = '\'' then shlexRun rest .single true tok
    else if c = '"' then shlexRun rest .double true tok
    else if c = '\\' then
      match rest with
      | [] => .error "No escaped character"
      | d :: rest2 => shlexRun rest2 .plain true (d :: tok)
    else shlexRun rest .plain true (c :: tok)
  | c :: rest, .single, _, tok =>
    if c = '\'' then shlexRun rest .plain true tok
    else shlexRun rest .single true (c :: tok)
  | c :: rest, .double, _, tok =>
    if c = '"' then shlexRun rest .plain true tok
    else if c = '\\' then
      match rest with
      | [] => .error "No escaped character"
      | d :: rest2 =>
        if d = '"' ∨ d = '\\' then shlexRun rest2 .double true (d :: tok)
        else shlexRun rest2 .double true (d :: '\\' :: tok)
    else shlexRun rest .double true (c :: tok)

/-- Python `shlex.split(s)` as called by `list_files`, `copy_file_or_dir`
and `move_file_or_dir`. -/
def shlexSplit (s : String) : Except String (List String) :=
  shlexRun s.data .plain false []

/-- The argument extraction of `copy_file_or_dir` / `move_file_or_dir`
(src/main.py 275-281, 294-300): `parts = shlex.split(command)`, a
missing-argument error when `len(parts) < 3`, else the source and
destination are `parts[1]` and `parts[2]`.  `none` stands for both the
`ParseError` and the missing-argument outcome. -/
def cpArgs (command : String) : Option (String × String) :=
  match shlexSplit command with
  | .error _ => none
  | .ok (_ :: a :: b :: _) => some (a, b)
  | .ok _ => none

/-- Python `os.path.join(a, b)` for POSIX paths: an absolute `b` replaces
`a`; otherwise the parts are joined with exactly one `/` between them. -/
def pyJoin (a b : String) : String :=
  if pyStartswith b "/" then b
  else if a = "" then b
  else if a.data.getLast? = some '/' then a ++ b
  else a ++ "/" ++ b

/-- Python `s.split(sep)` for a one-character separator, by structural
recursion: split at every occurrence, keeping empty pieces. -/
def splitCharAux (sep : Char) : List Char → List Char → List String
  | [], acc => [String.mk acc.reverse]
  | c :: rest, acc =>
    if c = sep then String.mk acc.reverse :: splitCharAux sep rest []
    else splitCharAux sep rest (c :: acc)

/-- Python `s.split(sep)` on strings. -/
def pySplit (sep : Char) (s : String) : List String :=
  splitCharAux sep s.data []

/-- Python `sep.join(parts)`, by structural recursion. -/
def joinSep (sep : String) : List String → String
  | [] => ""
  | [x] => x
  | x :: xs => x ++ sep ++ joinSep sep xs

/-- One step of `posixpath.normpath`'s component scan: `comps` is the list
of components still to process, `acc` holds the kept components in reverse
order, `initSlash` records whether the path was absolute. -/
def normComps (initSlash : Bool) : List String → List String → List String
  | acc, [] => acc
  | acc, comp :: rest =>
    if comp = "" ∨ comp = "." then normComps initSlash acc rest
    else if comp ≠ ".." ∨ (¬initSlash ∧ acc = []) ∨ (acc.head? = some "..") then
      normComps initSlash (comp :: acc) rest
    else
      match acc with
      | [] => normComps initSlash acc rest
      | _ :: accTail => normComps initSlash accTail rest

/-- Python `posixpath.normpath`: collapse `//`, `.` and `..` (keeping the
POSIX double-slash root special case). -/
def pyNormpath (path : String) : String :=
  if path = "" then "."
  else
    let slashes : Nat :=
      if pyStartswith path "//" ∧ ¬pyStartswith path "///" then 2
      else if pyStartswith path "/" then 1
      else 0
    let comps := pySplit '/' path
    let kept := (normComps (slashes ≠ 0) [] comps).reverse
    let joined := joinSep "/" kept
    let full := String.mk (List.replicate slashes '/') ++ joined
    if full = "" then "." else full

/-- Python `os.path.abspath(os.path.join(cwd, p))` as used by
`change_directory` (src/main.py line 168), for an absolute `cwd` (the
session invariant). -/
def pyAbspath (cwd p : String) : String :=
  pyNormpath (pyJoin cwd p)

/-- The filesystem oracle the built-ins consult: which absolute-or-relative
path strings name directories and which name regular files (the answers
`os.path.isdir` / `os.path.isfile` would give). -/
structure FileSys where
  dirs : List String
  files : List String
  deriving DecidableEq, Repr

/-- `os.path.isdir` against the oracle. -/
def FileSys.isDirB (fs : FileSys) (p : String) : Bool :=
  fs.dirs.contains p

/-- `os.path.isfile` against the oracle. -/
def FileSys.isFileB (fs : FileSys) (p : String) : Bool :=
  fs.files.contains p

/-- `TerminalWidget.change_directory` (src/main.py 164-175): empty argument
becomes the home directory, the argument is resolved against the session's
`current_dir` with `abspath(join(...))`, an existing directory updates
`current_dir` with no output, anything else appends
`"Error: Directory not found: <requested path>"` and leaves `current_dir`
unchanged.  Returns the new `current_dir` and the appended lines. -/
def change_directory (fs : FileSys) (home cwd path : String) :
    String × List OutLine :=
  let p := if path = "" then home else path
  let newDir := pyAbspath cwd p
  if fs.isDirB newDir then (newDir, [])
  else (cwd, [.err ("Error: Directory not found: " ++ p)])

/-- The cumulative ancestor paths `os.makedirs` creates for a path it is
given: every non-empty prefix of the `/`-separated component list (the
empty prefix is the already existing root). -/
def makedirsPaths (p : String) : List String :=
  let comps := pySplit '/' p
  ((List.range comps.length).map
    (fun i => joinSep "/" (comps.take (i + 1)))).filter (· ≠ "")

/-- `os.makedirs(path, exist_ok=True)` against the oracle: the path and
each of its ancestors become directories; an already existing directory is
not an error. -/
def fsMakedirs (fs : FileSys) (p : String) : FileSys :=
  { fs with dirs := makedirsPaths p ++ fs.dirs }

/-- `TerminalWidget.make_directory` (src/main.py 245-255): an empty
argument yields the missing-argument error, otherwise
`os.makedirs(os.path.join(current_dir, path), exist_ok=True)` runs and a
`"Created directory"` line is appended. -/
def make_directory (fs : FileSys) (cwd path : String) :
    FileSys × List OutLine :=
  if path = "" then (fs, [.err "Error: mkdir requires a directory name"])
  else
    let full := pyJoin cwd path
    (fsMakedirs fs full, [.out ("Created directory: " ++ path)])

/-- `TerminalWidget.execute_system_command` (src/main.py 307-327): the
subprocess oracle `run` maps (command line, working directory) to the
captured (stdout, stderr) of the spawned shell; the source passes
`cwd=self.current_dir` to `subprocess.Popen` and, after `communicate()`,
appends stdout as a plain block when non-empty and then stderr as an
`"Error: "`-prefixed block when non-empty. -/
def execute_system_command (run : String → String → String × String)
    (current_dir command : String) : List OutLine :=
  let captured := run command current_dir
  (if captured.1 = "" then [] else [.out captured.1]) ++
    (if captured.2 = "" then [] else [.err ("Error: " ++ captured.2)])

/-- The column-packing loops of `list_files` (src/main.py 227-238): walk
the rendered entries with `enumerate`-style counter `i`, appending to the
current `line`, and flush the line whenever `(i + 1) % per_line == 0`.
Rows are kept as lists of rendered entries (the source concatenates the
already `ljust`-padded entries, so a row's text is the concatenation of
its entries).  Returns the flushed rows and the unflushed carry line. -/
def packLoop (perLine : Nat) : List String → List String → Nat →
    List (List String) × List String
  | [], line, _ => ([], line)
  | x :: rest, line, i =>
    let line2 := line ++ [x]
    if (i + 1) % perLine = 0 then
      let next := packLoop perLine rest [] (i + 1)
      (line2 :: next.1, next.2)
    else
      packLoop perLine rest line2 (i + 1)

/-- `max([len(f) for f in files + dirs] + [0]) + 2` (src/main.py 224). -/
def lsMaxLen (dirs files : List String) : Nat :=
  ((files ++ dirs).map (fun f => f.data.length)).foldr max 0 + 2

/-- `per_line = max(1, 80 // max_len)` (src/main.py 225). -/
def lsPerLine (dirs files : List String) : Nat :=
  max 1 (80 / lsMaxLen dirs files)

/-- The short-format branch of `list_files` (src/main.py 218-241), given
the directory names and file names in host-listing order: directories are
rendered first with a `/` suffix, every entry is left-justified to the
common column width, the two packing loops share the carry line but each
restarts its counter at 0, and a non-empty final carry is flushed. -/
def lsShort (dirs files : List String) : List (List String) :=
  let maxLen := lsMaxLen dirs files
  let perLine := lsPerLine dirs files
  let dr := dirs.map (fun d => ljust (d ++ "/") maxLen)
  let fr := files.map (fun f => ljust f maxLen)
  let phase1 := packLoop perLine dr [] 0
  let phase2 := packLoop perLine fr phase1.2 0
  phase1.1 ++ phase2.1 ++ (if phase2.2 = [] then [] else [phase2.2])

/-- The hidden-entry filter of `list_files` (src/main.py 207-209): the raw
`os.listdir` names, minus the dot-prefixed ones unless `-a` was given. -/
def lsEntries (allNames : List String) (show_all : Bool) : List String :=
  if show_all then allNames
  else allNames.filter (fun f => !pyStartswith f ".")

/-- What a directory entry is for `os.path.isfile` / `os.path.isdir`:
a regular file, a directory, or neither (broken symbolic link, socket,
fifo, device...). -/
inductive EKind where
  | file
  | dir
  | other
  deriving DecidableEq, Repr

/-- A directory entry as the `ls` code observes it through the host
oracle: its name, its kind, the result of `os.stat` (`none` when the call
raises `FileNotFoundError`, as on a broken symbolic link; otherwise
`st_size` and the already `strftime`-rendered `st_mtime`), and the three
`os.access` answers. -/
structure DirEntry where
  name : String
  kind : EKind
  statData : Option (Nat × String)
  accessR : Bool
  accessW : Bool
  accessX : Bool
  deriving DecidableEq, Repr

/-- The long-format line of `list_files` (src/main.py 217): type character
(`'-'` when `os.path.isfile`, else `'d'` — even for entries that are no
directory), the three permission characters, the size right-padded to
width 8, the modification time, the name. -/
def longLine (e : DirEntry) (size : Nat) (mtime : String) : String :=
  (if e.kind = .file then "-" else "d") ++
    (if e.accessR then "r" else "-") ++
    (if e.accessW then "w" else "-") ++
    (if e.accessX then "x" else "-") ++
    " " ++ rjust (toString size) 8 ++ " " ++ mtime ++ " " ++ e.name

/-- The long-format loop of `list_files` (src/main.py 211-217) over the
(already hidden-filtered) entries of a directory `path`: each entry is
`os.stat`-ed and printed; a failing `stat` raises `FileNotFoundError`,
which the enclosing `except` turns into a single error line, dropping the
remaining entries. -/
def lsLongDir (path : String) : List DirEntry → List OutLine
  | [] => []
  | e :: rest =>
    match e.statData with
    | some sd => .out (longLine e sd.1 sd.2) :: lsLongDir path rest
    | none =>
      [.err ("Error: [Errno 2] No such file or directory: '" ++
        pyJoin path e.name ++ "'")]

/-- The short-format branch of `list_files` applied to a directory's
entries (src/main.py 220-241): only the entries `os.path.isdir` holds for
and the entries `os.path.isfile` holds for are kept (everything else is
dropped), and the two groups are column-packed. -/
def lsShortDir (entries : List DirEntry) : List (List String) :=
  let dirs := (entries.filter (fun e => e.kind = .dir)).map (fun e => e.name)
  let files := (entries.filter (fun e => e.kind = .file)).map (fun e => e.name)
  lsShort dirs files

/-- Round a rational to the nearest integer, ties to even — the rounding
`f"{x:.1f}"` applies to the scaled value. -/
def roundHalfEven (x : ℚ) : ℤ :=
  let f := Int.floor x
  if x - f < 1 / 2 then f
  else if 1 / 2 < x - f then f + 1
  else if 2 ∣ f then f else f + 1

/-- `f"{x:.1f}"`: one-decimal fixed-point rendering.  The source formats
Python floats; the embedding carries exact rationals, so the rendering
rounds the exact value to tenths (ties to even). -/
def fmt1 (x : ℚ) : String :=
  let t := roundHalfEven (10 * x)
  let sign := if t < 0 then "-" else ""
  sign ++ toString (t.natAbs / 10) ++ "." ++ toString (t.natAbs % 10)

/-- One element of `psutil.process_iter(['pid', 'name', 'username',
'cpu_percent', 'memory_info'])` as `show_processes` reads it: the spec's
Resource Snapshot Provider row, with nullable CPU percent and nullable
memory info (`rss` bytes). -/
structure Proc where
  pid : Nat
  name : String
  username : String
  cpu_percent : Option ℚ
  memory_rss : Option Nat
  deriving DecidableEq, Repr

/-- The sort key `x['cpu_percent'] or 0` (src/main.py 358). -/
def psKey (p : Proc) : ℚ :=
  p.cpu_percent.getD 0

/-- `p['memory_info'].rss / 1024 / 1024 if p['memory_info'] else 0`. -/
def memMB (p : Proc) : ℚ :=
  match p.memory_rss with
  | some rss => (rss : ℚ) / 1024 / 1024
  | none => 0

/-- The header line of `ps` (src/main.py 360). -/
def psHeader : String := "PID\tNAME\tUSER\tCPU%\tMEMORY"

/-- The row f-string of `ps` (src/main.py 363) for a process whose
`cpu_percent` is the rational `c`. -/
def psRow (p : Proc) (c : ℚ) : String :=
  toString p.pid ++ "\t" ++ p.name ++ "\t" ++ p.username ++ "\t" ++
    fmt1 c ++ "\t" ++ fmt1 (memMB p) ++ "MB"

/-- The row loop of `show_processes` (src/main.py 361-363): each process
of the sorted top 10 is printed; `f"{None:.1f}"` raises `TypeError`, which
the enclosing `except` turns into an error line, dropping the remaining
rows. -/
def psEmit : List Proc → List OutLine
  | [] => []
  | p :: rest =>
    match p.cpu_percent with
    | some c => .out (psRow p c) :: psEmit rest
    | none =>
      [.err "Error: unsupported format string passed to NoneType.__format__"]

/-- `TerminalWidget.show_processes` (src/main.py 351-365) applied to the
process list the provider returned.  Python's
`list.sort(key=..., reverse=True)` is the stable descending sort by the
key; for a total preorder the stable descending permutation is unique, and
`List.insertionSort` with the non-strict descending relation computes
exactly it. -/
def show_processes (procs : List Proc) : List OutLine :=
  let sorted := List.insertionSort (fun a b => psKey b ≤ psKey a) procs
  .out psHeader :: psEmit (sorted.take 10)

instance : IsTotal Proc (fun a b => psKey b ≤ psKey a) :=
  ⟨fun a b => le_total (psKey b) (psKey a)⟩

instance : IsTrans Proc (fun a b => psKey b ≤ psKey a) :=
  ⟨fun _ _ _ h1 h2 => le_trans h2 h1⟩

/-- The history-relevant state of `TerminalWidget`: `command_history` and
`history_index` (src/main.py 49-50).  The index is an integer because the
source initialises it to `-1`. -/
structure HistState where
  history : List String
  index : ℤ
  deriving DecidableEq, Repr

/-- `TerminalWidget.__init__` (src/main.py 49-50): empty history,
`history_index = -1`. -/
def initHist : HistState := ⟨[], -1⟩

/-- The three events that touch the history state: a line submitted in
`execute_command` (src/main.py 117-124) and the Up/Down arrows in
`keyPressEvent` (src/main.py 398-411). -/
inductive HEvent where
  | submit (line : String)
  | keyUp
  | keyDown
  deriving DecidableEq, Repr

/-- One history transition.  `submit` strips the line, drops it when
empty, otherwise appends it and sets the index to the new length;
Up decrements inside the guard `history and index > 0`; Down increments
under `history and index < len - 1` and otherwise snaps to `len`. -/
def hstep (e : HEvent) (s : HistState) : HistState :=
  match e with
  | .submit line =>
    let command := pyStrip line
    if command = "" then s
    else
      { history := s.history ++ [command],
        index := ((s.history ++ [command]).length : ℤ) }
  | .keyUp =>
    if s.history ≠ [] ∧ 0 < s.index then { s with index := s.index - 1 } else s
  | .keyDown =>
    if s.history ≠ [] ∧ s.index < (s.history.length : ℤ) - 1 then
      { s with index := s.index + 1 }
    else
      { s with index := (s.history.length : ℤ) }

/-- A whole session of history events from startup. -/
def runHist (events : List HEvent) : HistState :=
  events.foldl (fun s e => hstep e s) initHist

/-- The claimed cursor invariant: `historyCursor ∈ [0, len(history)]`. -/
def histInv (s : HistState) : Prop :=
  0 ≤ s.index ∧ s.index ≤ (s.history.length : ℤ)

instance (s : HistState) : Decidable (histInv s) := by
  unfold histInv; infer_instance

lemma prefCheck_iff (p : List Char) : ∀ s, prefCheck p s = true ↔ ∃ t, s = p ++ t := by
  induction p with
  | nil => intro s; simp [prefCheck]
  | cons a as ih =>
    intro s
    cases s with
    | nil => simp [prefCheck]
    | cons b bs =>
      simp only [prefCheck, Bool.and_eq_true, decide_eq_true_eq, ih, List.cons_append,
        List.cons.injEq]
      constructor
      · rintro ⟨rfl, t, rfl⟩; exact ⟨t, rfl, rfl⟩
      · rintro ⟨t, rfl, rfl⟩; exact ⟨rfl, t, rfl⟩

lemma pyStartswith_shape {l : List Char} {v : String} :
    pyStartswith (String.mk l) v = true ↔ ∃ t, l = v.data ++ t :=
  prefCheck_iff v.data l

lemma dispatch_eq_cases (c : String) (d : Dispatch) (h : dispatch c = d) :
    (pyLower c == "exit") = true ∧ d = .exitApp ∨
    (pyLower c == "help") = true ∧ d = .help ∨
    pyStartswith c "cd " = true ∧ d = .cd (pyDrop 3 c) ∨
    (c == "cd") = true ∧ d = .cd "" ∨
    (c == "pwd") = true ∧ d = .pwd ∨
    ((c == "ls") || pyStartswith c "ls ") = true ∧ d = .ls c ∨
    pyStartswith c "mkdir " = true ∧ d = .mkdir (pyDrop 6 c) ∨
    pyStartswith c "rm " = true ∧ d = .rm (pyDrop 3 c) ∨
    pyStartswith c "cp " = true ∧ d = .cp c ∨
    pyStartswith c "mv " = true ∧ d = .mv c ∨
    (c == "clear") = true ∧ d = .clear ∨
    (c == "history") = true ∧ d = .history ∨
    (c == "ps") = true ∧ d = .ps ∨
    (c == "top") = true ∧ d = .top ∨
    d = .external c := by
  unfold dispatch at h
  cases hb1 : pyLower c == "exit" <;> rw [hb1] at h <;>
    simp only [Bool.cond_false, Bool.cond_true] at h
  case true => exact Or.inl ⟨rfl, h.symm⟩
  cases hb2 : pyLower c == "help" <;> rw [hb2] at h <;>
    simp only [Bool.cond_false, Bool.cond_true] at h
  case true => exact Or.inr <| Or.inl ⟨rfl, h.symm⟩
  cases hb3 : pyStartswith c "cd " <;> rw [hb3] at h <;>
    simp only [Bool.cond_false, Bool.cond_true] at h
  case true => exact Or.inr <| Or.inr <| Or.inl ⟨rfl, h.symm⟩
  cases hb4 : c == "cd" <;> rw [hb4] at h <;>
    simp only [Bool.cond_false, Bool.cond_true] at h
  case true => exact Or.inr <| Or.inr <| Or.inr <| Or.inl ⟨rfl, h.symm⟩
  cases hb5 : c == "pwd" <;> rw [hb5] at h <;>
    simp only [Bool.cond_false, Bool.cond_true] at h
  case true => exact Or.inr <| Or.inr <| Or.inr <| Or.inr <| Or.inl ⟨rfl, h.symm⟩
  cases hb6 : (c == "ls") || pyStartswith c "ls " <;> rw [hb6] at h <;>
    simp only [Bool.cond_false, Bool.cond_true] at h
  case true =>
    exact Or.inr <| Or.inr <| Or.inr <| Or.inr <| Or.inr <| Or.inl ⟨rfl, h.symm⟩
  cases hb7 : pyStartswith c "mkdir " <;> rw [hb7] at h <;>
    simp only [Bool.cond_false, Bool.cond_true] at h
  case true =>
    exact Or.inr <| Or.inr <| Or.inr <| Or.inr <| Or.inr <| Or.inr <| Or.inl ⟨rfl, h.symm⟩
  cases hb8 : pyStartswith c "rm " <;> rw [hb8] at h <;>
    simp only [Bool.cond_false, Bool.cond_true] at h
  case true =>
    exact Or.inr <| Or.inr <| Or.inr <| Or.inr <| Or.inr <| Or.inr <| Or.inr <|
      Or.inl ⟨rfl, h.symm⟩
  cases hb9 : pyStartswith c "cp " <;> rw [hb9] at h <;>
    simp only [Bool.cond_false, Bool.cond_true] at h
  case true =>
    exact Or.inr <| Or.inr <| Or.inr <| Or.inr <| Or.inr <| Or.inr <| Or.inr <| Or.inr <|
      Or.inl ⟨rfl, h.symm⟩
  cases hb10 : pyStartswith c "mv " <;> rw [hb10] at h <;>
    simp only [Bool.cond_false, Bool.cond_true] at h
  case true =>
    exact Or.inr <| Or.inr <| Or.inr <| Or.inr <| Or.inr <| Or.inr <| Or.inr <| Or.inr <|
      Or.inr <| Or.inl ⟨rfl, h.symm⟩
  cases hb11 : c == "clear" <;> rw [hb11] at h <;>
    simp only [Bool.cond_false, Bool.cond_true] at h
  case true =>
    exact Or.inr <| Or.inr <| Or.inr <| Or.inr <| Or.inr <| Or.inr <| Or.inr <| Or.inr <|
      Or.inr <| Or.inr <| Or.inl ⟨rfl, h.symm⟩
  cases hb12 : c == "history" <;> rw [hb12] at h <;>
    simp only [Bool.cond_false, Bool.cond_true] at h
  case true =>
    exact Or.inr <| Or.inr <| Or.inr <| Or.inr <| Or.inr <| Or.inr <| Or.inr <| Or.inr <|
      Or.inr <| Or.inr <| Or.inr <| Or.inl ⟨rfl, h.symm⟩
  cases hb13 : c == "ps" <;> rw [hb13] at h <;>
    simp only [Bool.cond_false, Bool.cond_true] at h
  case true =>
    exact Or.inr <| Or.inr <| Or.inr <| Or.inr <| Or.inr <| Or.inr <| Or.inr <| Or.inr <|
      Or.inr <| Or.inr <| Or.inr <| Or.inr <| Or.inl ⟨rfl, h.symm⟩
  cases hb14 : c == "top" <;> rw [hb14] at h <;>
    simp only [Bool.cond_false, Bool.cond_true] at h
  case true =>
    exact Or.inr <| Or.inr <| Or.inr <| Or.inr <| Or.inr <| Or.inr <| Or.inr <| Or.inr <|
      Or.inr <| Or.inr <| Or.inr <| Or.inr <| Or.inr <| Or.inl ⟨rfl, h.symm⟩
  exact Or.inr <| Or.inr <| Or.inr <| Or.inr <| Or.inr <| Or.inr <| Or.inr <| Or.inr <|
    Or.inr <| Or.inr <| Or.inr <| Or.inr <| Or.inr <| Or.inr h.symm

lemma dispatch_exit_iff (c : String) : dispatch c = .exitApp ↔ pyLower c = "exit" := by
  constructor
  · intro h
    rcases dispatch_eq_cases c _ h with ⟨hb, hd⟩ | ⟨hb, hd⟩ | ⟨hb, hd⟩ | ⟨hb, hd⟩ | ⟨hb, hd⟩ |
      ⟨hb, hd⟩ | ⟨hb, hd⟩ | ⟨hb, hd⟩ | ⟨hb, hd⟩ | ⟨hb, hd⟩ | ⟨hb, hd⟩ | ⟨hb, hd⟩ | ⟨hb, hd⟩ |
      ⟨hb, hd⟩ | hd <;> (try cases hd) <;> exact eq_of_beq hb
  · intro h
    unfold dispatch
    rw [show (pyLower c == "exit") = true from beq_iff_eq.mpr h]
    rfl

lemma dispatch_help_iff (c : String) : dispatch c = .help ↔ pyLower c = "help" := by
  constructor
  · intro h
    rcases dispatch_eq_cases c _ h with ⟨hb, hd⟩ | ⟨hb, hd⟩ | ⟨hb, hd⟩ | ⟨hb, hd⟩ | ⟨hb, hd⟩ |
      ⟨hb, hd⟩ | ⟨hb, hd⟩ | ⟨hb, hd⟩ | ⟨hb, hd⟩ | ⟨hb, hd⟩ | ⟨hb, hd⟩ | ⟨hb, hd⟩ | ⟨hb, hd⟩ |
      ⟨hb, hd⟩ | hd <;> (try cases hd) <;> exact eq_of_beq hb
  · intro h
    unfold dispatch
    rw [show (pyLower c == "exit") = false from by rw [h]; rfl,
      show (pyLower c == "help") = true from beq_iff_eq.mpr h]
    rfl

lemma dispatch_cd_iff (c p : String) :
    dispatch c = .cd p ↔
      (pyStartswith c "cd " = true ∧ p = pyDrop 3 c) ∨ (c = "cd" ∧ p = "") := by
  constructor
  · intro h
    rcases dispatch_eq_cases c _ h with ⟨hb, hd⟩ | ⟨hb, hd⟩ | ⟨hb, hd⟩ | ⟨hb, hd⟩ | ⟨hb, hd⟩ |
      ⟨hb, hd⟩ | ⟨hb, hd⟩ | ⟨hb, hd⟩ | ⟨hb, hd⟩ | ⟨hb, hd⟩ | ⟨hb, hd⟩ | ⟨hb, hd⟩ | ⟨hb, hd⟩ |
      ⟨hb, hd⟩ | hd <;> (try cases hd)
    · exact Or.inl ⟨hb, rfl⟩
    · exact Or.inr ⟨eq_of_beq hb, rfl⟩
  · rintro (⟨hpre, rfl⟩ | ⟨rfl, rfl⟩)
    · cases c with
      | mk l =>
        obtain ⟨t, rfl⟩ := pyStartswith_shape.mp hpre
        rfl
    · rfl

lemma dispatch_pwd_iff (c : String) : dispatch c = .pwd ↔ c = "pwd" := by
  constructor
  · intro h
    rcases dispatch_eq_cases c _ h with ⟨hb, hd⟩ | ⟨hb, hd⟩ | ⟨hb, hd⟩ | ⟨hb, hd⟩ | ⟨hb, hd⟩ |
      ⟨hb, hd⟩ | ⟨hb, hd⟩ | ⟨hb, hd⟩ | ⟨hb, hd⟩ | ⟨hb, hd⟩ | ⟨hb, hd⟩ | ⟨hb, hd⟩ | ⟨hb, hd⟩ |
      ⟨hb, hd⟩ | hd <;> (try cases hd) <;> exact eq_of_beq hb
  · rintro rfl; rfl

lemma dispatch_ls_iff (c l : String) :
    dispatch c = .ls l ↔ l = c ∧ (c = "ls" ∨ pyStartswith c "ls " = true) := by
  constructor
  · intro h
    rcases dispatch_eq_cases c _ h with ⟨hb, hd⟩ | ⟨hb, hd⟩ | ⟨hb, hd⟩ | ⟨hb, hd⟩ | ⟨hb, hd⟩ |
      ⟨hb, hd⟩ | ⟨hb, hd⟩ | ⟨hb, hd⟩ | ⟨hb, hd⟩ | ⟨hb, hd⟩ | ⟨hb, hd⟩ | ⟨hb, hd⟩ | ⟨hb, hd⟩ |
      ⟨hb, hd⟩ | hd <;> (try cases hd)
    refine ⟨rfl, ?_⟩
    rcases Bool.or_eq_true_iff.mp hb with hx | hx
    · exact Or.inl (eq_of_beq hx)
    · exact Or.inr hx
  · rintro ⟨rfl, rfl | hpre⟩
    · rfl
    · cases l with
      | mk dat =>
        obtain ⟨t, rfl⟩ := pyStartswith_shape.mp hpre
        rfl

lemma dispatch_mkdir_iff (c p : String) :
    dispatch c = .mkdir p ↔ pyStartswith c "mkdir " = true ∧ p = pyDrop 6 c := by
  constructor
  · intro h
    rcases dispatch_eq_cases c _ h with ⟨hb, hd⟩ | ⟨hb, hd⟩ | ⟨hb, hd⟩ | ⟨hb, hd⟩ | ⟨hb, hd⟩ |
      ⟨hb, hd⟩ | ⟨hb, hd⟩ | ⟨hb, hd⟩ | ⟨hb, hd⟩ | ⟨hb, hd⟩ | ⟨hb, hd⟩ | ⟨hb, hd⟩ | ⟨hb, hd⟩ |
      ⟨hb, hd⟩ | hd <;> (try cases hd)
    exact ⟨hb, rfl⟩
  · rintro ⟨hpre, rfl⟩
    cases c with
    | mk l =>
      obtain ⟨t, rfl⟩ := pyStartswith_shape.mp hpre
      rfl

lemma dispatch_rm_iff (c p : String) :
    dispatch c = .rm p ↔ pyStartswith c "rm " = true ∧ p = pyDrop 3 c := by
  constructor
  · intro h
    rcases dispatch_eq_cases c _ h with ⟨hb, hd⟩ | ⟨hb, hd⟩ | ⟨hb, hd⟩ | ⟨hb, hd⟩ | ⟨hb, hd⟩ |
      ⟨hb, hd⟩ | ⟨hb, hd⟩ | ⟨hb, hd⟩ | ⟨hb, hd⟩ | ⟨hb, hd⟩ | ⟨hb, hd⟩ | ⟨hb, hd⟩ | ⟨hb, hd⟩ |
      ⟨hb, hd⟩ | hd <;> (try cases hd)
    exact ⟨hb, rfl⟩
  · rintro ⟨hpre, rfl⟩
    cases c with
    | mk l =>
      obtain ⟨t, rfl⟩ := pyStartswith_shape.mp hpre
      rfl

lemma dispatch_cp_iff (c l : String) :
    dispatch c = .cp l ↔ l = c ∧ pyStartswith c "cp " = true := by
  constructor
  · intro h
    rcases dispatch_eq_cases c _ h with ⟨hb, hd⟩ | ⟨hb, hd⟩ | ⟨hb, hd⟩ | ⟨hb, hd⟩ | ⟨hb, hd⟩ |
      ⟨hb, hd⟩ | ⟨hb, hd⟩ | ⟨hb, hd⟩ | ⟨hb, hd⟩ | ⟨hb, hd⟩ | ⟨hb, hd⟩ | ⟨hb, hd⟩ | ⟨hb, hd⟩ |
      ⟨hb, hd⟩ | hd <;> (try cases hd)
    exact ⟨rfl, hb⟩
  · rintro ⟨rfl, hpre⟩
    cases l with
    | mk dat =>
      obtain ⟨t, rfl⟩ := pyStartswith_shape.mp hpre
      rfl

lemma dispatch_mv_iff (c l : String) :
    dispatch c = .mv l ↔ l = c ∧ pyStartswith c "mv " = true := by
  constructor
  · intro h
    rcases dispatch_eq_cases c _ h with ⟨hb, hd⟩ | ⟨hb, hd⟩ | ⟨hb, hd⟩ | ⟨hb, hd⟩ | ⟨hb, hd⟩ |
      ⟨hb, hd⟩ | ⟨hb, hd⟩ | ⟨hb, hd⟩ | ⟨hb, hd⟩ | ⟨hb, hd⟩ | ⟨hb, hd⟩ | ⟨hb, hd⟩ | ⟨hb, hd⟩ |
      ⟨hb, hd⟩ | hd <;> (try cases hd)
    exact ⟨rfl, hb⟩
  · rintro ⟨rfl, hpre⟩
    cases l with
    | mk dat =>
      obtain ⟨t, rfl⟩ := pyStartswith_shape.mp hpre
      rfl

lemma dispatch_clear_iff (c : String) : dispatch c = .clear ↔ c = "clear" := by
  constructor
  · intro h
    rcases dispatch_eq_cases c _ h with ⟨hb, hd⟩ | ⟨hb, hd⟩ | ⟨hb, hd⟩ | ⟨hb, hd⟩ | ⟨hb, hd⟩ |
      ⟨hb, hd⟩ | ⟨hb, hd⟩ | ⟨hb, hd⟩ | ⟨hb, hd⟩ | ⟨hb, hd⟩ | ⟨hb, hd⟩ | ⟨hb, hd⟩ | ⟨hb, hd⟩ |
      ⟨hb, hd⟩ | hd <;> (try cases hd) <;> exact eq_of_beq hb
  · rintro rfl; rfl

lemma dispatch_history_iff (c : String) : dispatch c = .history ↔ c = "history" := by
  constructor
  · intro h
    rcases dispatch_eq_cases c _ h with ⟨hb, hd⟩ | ⟨hb, hd⟩ | ⟨hb, hd⟩ | ⟨hb, hd⟩ | ⟨hb, hd⟩ |
      ⟨hb, hd⟩ | ⟨hb, hd⟩ | ⟨hb, hd⟩ | ⟨hb, hd⟩ | ⟨hb, hd⟩ | ⟨hb, hd⟩ | ⟨hb, hd⟩ | ⟨hb, hd⟩ |
      ⟨hb, hd⟩ | hd <;> (try cases hd) <;> exact eq_of_beq hb
  · rintro rfl; rfl

lemma dispatch_ps_iff (c : String) : dispatch c = .ps ↔ c = "ps" := by
  constructor
  · intro h
    rcases dispatch_eq_cases c _ h with ⟨hb, hd⟩ | ⟨hb, hd⟩ | ⟨hb, hd⟩ | ⟨hb, hd⟩ | ⟨hb, hd⟩ |
      ⟨hb, hd⟩ | ⟨hb, hd⟩ | ⟨hb, hd⟩ | ⟨hb, hd⟩ | ⟨hb, hd⟩ | ⟨hb, hd⟩ | ⟨hb, hd⟩ | ⟨hb, hd⟩ |
      ⟨hb, hd⟩ | hd <;> (try cases hd) <;> exact eq_of_beq hb
  · rintro rfl; rfl

lemma dispatch_top_iff (c : String) : dispatch c = .top ↔ c = "top" := by
  constructor
  · intro h
    rcases dispatch_eq_cases c _ h with ⟨hb, hd⟩ | ⟨hb, hd⟩ | ⟨hb, hd⟩ | ⟨hb, hd⟩ | ⟨hb, hd⟩ |
      ⟨hb, hd⟩ | ⟨hb, hd⟩ | ⟨hb, hd⟩ | ⟨hb, hd⟩ | ⟨hb, hd⟩ | ⟨hb, hd⟩ | ⟨hb, hd⟩ | ⟨hb, hd⟩ |
      ⟨hb, hd⟩ | hd <;> (try cases hd) <;> exact eq_of_beq hb
  · rintro rfl; rfl

lemma dispatch_external_of (c : String)
    (h1 : pyLower c ≠ "exit") (h2 : pyLower c ≠ "help")
    (htok : firstTok c ∉ (["cd", "pwd", "ls", "mkdir", "rm", "cp", "mv",
      "clear", "history", "ps", "top"] : List String)) :
    dispatch c = .external c := by
  have hpcd : pyStartswith c "cd " = false := by
    cases hq : pyStartswith c "cd " with
    | false => rfl
    | true =>
      exfalso
      cases c with
      | mk l =>
        obtain ⟨t, rfl⟩ := pyStartswith_shape.mp hq
        exact htok (by
          rw [show firstTok (String.mk ("cd ".data ++ t)) = "cd" from rfl]
          decide)
  have hpls : pyStartswith c "ls " = false := by
    cases hq : pyStartswith c "ls " with
    | false => rfl
    | true =>
      exfalso
      cases c with
      | mk l =>
        obtain ⟨t, rfl⟩ := pyStartswith_shape.mp hq
        exact htok (by
          rw [show firstTok (String.mk ("ls ".data ++ t)) = "ls" from rfl]
          decide)
  have hpmkdir : pyStartswith c "mkdir " = false := by
    cases hq : pyStartswith c "mkdir " with
    | false => rfl
    | true =>
      exfalso
      cases c with
      | mk l =>
        obtain ⟨t, rfl⟩ := pyStartswith_shape.mp hq
        exact htok (by
          rw [show firstTok (String.mk ("mkdir ".data ++ t)) = "mkdir" from rfl]
          decide)
  have hprm : pyStartswith c "rm " = false := by
    cases hq : pyStartswith c "rm " with
    | false => rfl
    | true =>
      exfalso
      cases c with
      | mk l =>
        obtain ⟨t, rfl⟩ := pyStartswith_shape.mp hq
        exact htok (by
          rw [show firstTok (String.mk ("rm ".data ++ t)) = "rm" from rfl]
          decide)
  have hpcp : pyStartswith c "cp " = false := by
    cases hq : pyStartswith c "cp " with
    | false => rfl
    | true =>
      exfalso
      cases c with
      | mk l =>
        obtain ⟨t, rfl⟩ := pyStartswith_shape.mp hq
        exact htok (by
          rw [show firstTok (String.mk ("cp ".data ++ t)) = "cp" from rfl]
          decide)
  have hpmv : pyStartswith c "mv " = false := by
    cases hq : pyStartswith c "mv " with
    | false => rfl
    | true =>
      exfalso
      cases c with
      | mk l =>
        obtain ⟨t, rfl⟩ := pyStartswith_shape.mp hq
        exact htok (by
          rw [show firstTok (String.mk ("mv ".data ++ t)) = "mv" from rfl]
          decide)
  have hecd : (c == "cd") = false := by
    cases hq : c == "cd" with
    | false => rfl
    | true => exact absurd (eq_of_beq hq ▸ htok) (by decide)
  have hepwd : (c == "pwd") = false := by
    cases hq : c == "pwd" with
    | false => rfl
    | true => exact absurd (eq_of_beq hq ▸ htok) (by decide)
  have hels : (c == "ls") = false := by
    cases hq : c == "ls" with
    | false => rfl
    | true => exact absurd (eq_of_beq hq ▸ htok) (by decide)
  have heclear : (c == "clear") = false := by
    cases hq : c == "clear" with
    | false => rfl
    | true => exact absurd (eq_of_beq hq ▸ htok) (by decide)
  have hehistory : (c == "history") = false := by
    cases hq : c == "history" with
    | false => rfl
    | true => exact absurd (eq_of_beq hq ▸ htok) (by decide)
  have heps : (c == "ps") = false := by
    cases hq : c == "ps" with
    | false => rfl
    | true => exact absurd (eq_of_beq hq ▸ htok) (by decide)
  have hetop : (c == "top") = false := by
    cases hq : c == "top" with
    | false => rfl
    | true => exact absurd (eq_of_beq hq ▸ htok) (by decide)
  unfold dispatch
  rw [beq_eq_false_iff_ne.mpr h1, beq_eq_false_iff_ne.mpr h2, hpcd, hecd, hepwd,
    hels, hpls, hpmkdir, hprm, hpcp, hpmv, heclear, hehistory, heps, hetop]
  rfl

/-- Claim C1: for every non-empty path argument `P`, when the resolved
absolute path is not an existing directory, `cd P` leaves the current
directory unchanged and appends a directory-not-found error naming the
requested path `P` (not the resolved one); when the resolved path is an
existing directory, `cd P` updates the current directory to it and
produces no output. -/
theorem cd_reports_requested_path (fs : FileSys) (home cwd path : String)
    (hne : path ≠ "") :
    (fs.isDirB (pyAbspath cwd path) = false →
      change_directory fs home cwd path =
        (cwd, [OutLine.err ("Error: Directory not found: " ++ path)])) ∧
    (fs.isDirB (pyAbspath cwd path) = true →
      change_directory fs home cwd path = (pyAbspath cwd path, [])) := by
  unfold change_directory
  rw [if_neg hne]
  constructor <;> intro h <;> simp [h]

/-- Witness for `cd_reports_requested_path`: a failing and a succeeding
`cd b` from `/a`, evaluated on concrete filesystems. -/
theorem cd_reports_requested_path_witness :
    change_directory ⟨["/a"], []⟩ "/root" "/a" "b" =
      ("/a", [OutLine.err "Error: Directory not found: b"]) ∧
    change_directory ⟨["/a", "/a/b"], []⟩ "/root" "/a" "b" = ("/a/b", []) :=
  ⟨((cd_reports_requested_path ⟨["/a"], []⟩ "/root" "/a" "b" (by decide)).1
      (by decide)).trans (by decide),
   ((cd_reports_requested_path ⟨["/a", "/a/b"], []⟩ "/root" "/a" "b" (by decide)).2
      (by decide)).trans (by decide)⟩

/-- Counterexample to claim C2 as stated: the spec's first-token rule
dispatches `pwd .` to the built-in `pwd`, but the code's exact whole-line
match fails on it and the line is delegated to the external executor. -/
theorem dispatch_first_token_claim_false :
    dispatchVerb (dispatch "pwd .") ≠ dispatchSpecVerb "pwd ." := by decide

/-- Claim C2 (amended): the dispatcher matches `exit` and `help`
case-insensitively against the whole line; it matches `cd` and `ls` when
the line is exactly the verb or starts with the verb plus a space;
`mkdir`, `rm`, `cp` and `mv` only when the line starts with the verb plus
a space; `pwd`, `clear`, `history`, `ps` and `top` only when the line is
exactly the verb; a line whose lowercase form is neither `exit` nor `help`
and whose first token is none of the other verbs is delegated to the
External Command Executor. -/
theorem dispatch_matching_characterization : ∀ c : String,
    (dispatch c = .exitApp ↔ pyLower c = "exit") ∧
    (dispatch c = .help ↔ pyLower c = "help") ∧
    (∀ p, dispatch c = .cd p ↔
      (pyStartswith c "cd " = true ∧ p = pyDrop 3 c) ∨ (c = "cd" ∧ p = "")) ∧
    (dispatch c = .pwd ↔ c = "pwd") ∧
    (∀ l, dispatch c = .ls l ↔ l = c ∧ (c = "ls" ∨ pyStartswith c "ls " = true)) ∧
    (∀ p, dispatch c = .mkdir p ↔ pyStartswith c "mkdir " = true ∧ p = pyDrop 6 c) ∧
    (∀ p, dispatch c = .rm p ↔ pyStartswith c "rm " = true ∧ p = pyDrop 3 c) ∧
    (∀ l, dispatch c = .cp l ↔ l = c ∧ pyStartswith c "cp " = true) ∧
    (∀ l, dispatch c = .mv l ↔ l = c ∧ pyStartswith c "mv " = true) ∧
    (dispatch c = .clear ↔ c = "clear") ∧
    (dispatch c = .history ↔ c = "history") ∧
    (dispatch c = .ps ↔ c = "ps") ∧
    (dispatch c = .top ↔ c = "top") ∧
    (pyLower c ≠ "exit" → pyLower c ≠ "help" →
      firstTok c ∉ (["cd", "pwd", "ls", "mkdir", "rm", "cp", "mv",
        "clear", "history", "ps", "top"] : List String) →
      dispatch c = .external c) :=
  fun c =>
    ⟨dispatch_exit_iff c, dispatch_help_iff c, fun p => dispatch_cd_iff c p,
     dispatch_pwd_iff c, fun l => dispatch_ls_iff c l,
     fun p => dispatch_mkdir_iff c p, fun p => dispatch_rm_iff c p,
     fun l => dispatch_cp_iff c l, fun l => dispatch_mv_iff c l,
     dispatch_clear_iff c, dispatch_history_iff c, dispatch_ps_iff c,
     dispatch_top_iff c, dispatch_external_of c⟩

/-- Witness for `dispatch_matching_characterization` at concrete lines. -/
theorem dispatch_matching_characterization_witness :
    dispatch "cd x" = Dispatch.cd "x" ∧
    dispatch "zzz" = Dispatch.external "zzz" :=
  ⟨(((dispatch_matching_characterization "cd x").2.2.1 "x").mpr
      (Or.inl ⟨by decide, by decide⟩)),
   ((dispatch_matching_characterization
      "zzz").2.2.2.2.2.2.2.2.2.2.2.2.2 (by decide) (by decide) (by decide))⟩

/-- Claim C3: every line delegated to the external executor is run with
the session's current directory as working directory, and the result holds
the captured stdout as a non-error block when non-empty and the captured
stderr as an error block when non-empty, stdout first, both present when
both streams are non-empty. -/
theorem external_command_output_blocks (run : String → String → String × String)
    (cwd command : String) :
    ((run command cwd).1 ≠ "" →
      OutLine.out (run command cwd).1 ∈ execute_system_command run cwd command) ∧
    ((run command cwd).2 ≠ "" →
      OutLine.err ("Error: " ++ (run command cwd).2) ∈
        execute_system_command run cwd command) ∧
    ((run command cwd).1 ≠ "" → (run command cwd).2 ≠ "" →
      execute_system_command run cwd command =
        [OutLine.out (run command cwd).1,
         OutLine.err ("Error: " ++ (run command cwd).2)]) ∧
    ((run command cwd).1 = "" → (run command cwd).2 = "" →
      execute_system_command run cwd command = []) ∧
    (∀ run2 : String → String → String × String,
      run2 command cwd = run command cwd →
      execute_system_command run2 cwd command =
        execute_system_command run cwd command) := by
  refine ⟨?_, ?_, ?_, ?_, ?_⟩
  · intro h; simp [execute_system_command, h]
  · intro h; simp [execute_system_command, h]
  · intro h1 h2; simp [execute_system_command, h1, h2]
  · intro h1 h2; simp [execute_system_command, h1, h2]
  · intro run2 heq; simp [execute_system_command, heq]

/-- Witness for `external_command_output_blocks`: a command that writes
one line to each stream produces both blocks, stdout first. -/
theorem external_command_output_blocks_witness :
    execute_system_command (fun _ _ => ("data", "warn")) "/w" "sh x" =
      [OutLine.out "data", OutLine.err "Error: warn"] :=
  (external_command_output_blocks (fun _ _ => ("data", "warn")) "/w" "sh x").2.2.1
    (by decide) (by decide)

/-- Claim C4 (the code contradicts it): the dispatcher only recognises
`mkdir` with a trailing space, so the bare line `mkdir` is delegated to
the external executor and `make_directory`'s missing-argument branch is
unreachable from the dispatcher, although it exists and would produce the
claimed error; with an argument, `os.makedirs(..., exist_ok=True)` creates
the path and repeating it on an existing directory still succeeds. -/
theorem mkdir_without_argument_goes_external :
    dispatch "mkdir" = Dispatch.external "mkdir" ∧
    make_directory ⟨["/h"], []⟩ "/h" "" =
      (⟨["/h"], []⟩, [OutLine.err "Error: mkdir requires a directory name"]) ∧
    (make_directory ⟨[], []⟩ "/h" "a/b").1.isDirB "/h/a" = true ∧
    (make_directory ⟨[], []⟩ "/h" "a/b").1.isDirB "/h/a/b" = true ∧
    (make_directory ⟨["/h", "/h/a", "/h/a/b"], []⟩ "/h" "a/b").2 =
      [OutLine.out "Created directory: a/b"] := by decide

/-- Counterexample to claim C5 as stated: the path argument `cd` receives
is the raw remainder of the line, quotes included, not the shlex token. -/
theorem cd_argument_keeps_quotes :
    dispatch "cd \"my dir\"" = Dispatch.cd "\"my dir\"" ∧
    shlexSplit "cd \"my dir\"" = .ok ["cd", "my dir"] ∧
    ("\"my dir\"" : String) ≠ "my dir" := ⟨rfl, rfl, by decide⟩

/-- Claim C5 (amended): `ls`, `cp` and `mv` obtain their arguments through
POSIX `shlex` word-splitting — tokenizing `cp "my file.txt" dest.txt`
yields exactly the two arguments `my file.txt` and `dest.txt` — but `cd`,
`mkdir` and `rm` receive the raw remainder of the line after the verb and
one space, with quoting untouched. -/
theorem raw_remainder_vs_shlex_tokens :
    shlexSplit "cp \"my file.txt\" dest.txt" =
      .ok ["cp", "my file.txt", "dest.txt"] ∧
    cpArgs "cp \"my file.txt\" dest.txt" = some ("my file.txt", "dest.txt") ∧
    (∀ c, pyStartswith c "cd " = true → dispatch c = .cd (pyDrop 3 c)) ∧
    (∀ c, pyStartswith c "mkdir " = true → dispatch c = .mkdir (pyDrop 6 c)) ∧
    (∀ c, pyStartswith c "rm " = true → dispatch c = .rm (pyDrop 3 c)) := by
  refine ⟨rfl, by decide, ?_, ?_, ?_⟩
  · intro c hpre; exact (dispatch_cd_iff c _).mpr (Or.inl ⟨hpre, rfl⟩)
  · intro c hpre; exact (dispatch_mkdir_iff c _).mpr ⟨hpre, rfl⟩
  · intro c hpre; exact (dispatch_rm_iff c _).mpr ⟨hpre, rfl⟩

/-- Witness for `raw_remainder_vs_shlex_tokens` at concrete lines. -/
theorem raw_remainder_vs_shlex_tokens_witness :
    dispatch "cd spaced name" = Dispatch.cd "spaced name" ∧
    dispatch "rm a b" = Dispatch.rm "a b" :=
  ⟨(raw_remainder_vs_shlex_tokens.2.2.1 "cd spaced name" (by decide)).trans
      (by decide),
   (raw_remainder_vs_shlex_tokens.2.2.2.2 "rm a b" (by decide)).trans
      (by decide)⟩

lemma packLoop_flatten (p : Nat) :
    ∀ (items line : List String) (i : Nat),
      ((packLoop p items line i).1).flatten ++ (packLoop p items line i).2 =
        line ++ items := by
  intro items
  induction items with
  | nil => intro line i; simp [packLoop]
  | cons x rest ih =>
    intro line i
    simp only [packLoop]
    split
    · have := ih [] (i + 1)
      simp only [List.nil_append] at this
      simp only [List.flatten_cons, List.append_assoc, this]
      simp
    · have := ih (line ++ [x]) (i + 1)
      simp only [this]
      simp [List.append_assoc]

lemma packLoop_bound (p B : Nat) (hp : 0 < p) (hB : p ≤ B) :
    ∀ (items line : List String) (i : Nat),
      line.length + (p - i % p) ≤ B →
      (∀ row ∈ (packLoop p items line i).1, row.length ≤ B) ∧
      (packLoop p items line i).2.length ≤ B - 1 := by
  intro items
  induction items with
  | nil =>
    intro line i h
    have hm : i % p < p := Nat.mod_lt i hp
    constructor
    · simp [packLoop]
    · simp only [packLoop]
      omega
  | cons x rest ih =>
    intro line i h
    have hm : i % p < p := Nat.mod_lt i hp
    simp only [packLoop]
    split
    next hc =>
      obtain ⟨ihrows, ihcarry⟩ := ih [] (i + 1) (by rw [hc]; simpa using hB)
      refine ⟨?_, ihcarry⟩
      intro row hrow
      rcases List.mem_cons.mp hrow with rfl | hrow2
      · simp only [List.length_append, List.length_cons, List.length_nil]
        omega
      · exact ihrows row hrow2
    next hc =>
      have hmod : (i + 1) % p = i % p + 1 := by
        rcases Nat.lt_or_ge (i % p + 1) p with hlt | hge
        · have h2 : 1 < p := by omega
          rw [Nat.add_mod, Nat.mod_eq_of_lt h2, Nat.mod_eq_of_lt hlt]
        · exfalso
          have h1 : i % p + 1 = p := by omega
          have hz : (i + 1) % p = 0 := by
            rcases Nat.eq_or_lt_of_le hp with hp1 | hp2
            · rw [← hp1, Nat.mod_one]
            · rw [Nat.add_mod, Nat.mod_eq_of_lt hp2, h1, Nat.mod_self]
          exact hc hz
      apply ih (line ++ [x]) (i + 1)
      simp only [List.length_append, List.length_cons, List.length_nil, hmod]
      omega

lemma lsShort_eq (dirs files : List String) :
    lsShort dirs files =
      (packLoop (lsPerLine dirs files)
        (dirs.map (fun d => ljust (d ++ "/") (lsMaxLen dirs files))) [] 0).1 ++
      (packLoop (lsPerLine dirs files)
        (files.map (fun f => ljust f (lsMaxLen dirs files)))
        (packLoop (lsPerLine dirs files)
          (dirs.map (fun d => ljust (d ++ "/") (lsMaxLen dirs files))) [] 0).2 0).1 ++
      (if (packLoop (lsPerLine dirs files)
            (files.map (fun f => ljust f (lsMaxLen dirs files)))
            (packLoop (lsPerLine dirs files)
              (dirs.map (fun d => ljust (d ++ "/") (lsMaxLen dirs files))) [] 0).2 0).2 = []
       then []
       else [(packLoop (lsPerLine dirs files)
              (files.map (fun f => ljust f (lsMaxLen dirs files)))
              (packLoop (lsPerLine dirs files)
                (dirs.map (fun d => ljust (d ++ "/") (lsMaxLen dirs files))) [] 0).2 0).2]) :=
  rfl

lemma one_le_lsPerLine (dirs files : List String) : 0 < lsPerLine dirs files :=
  lt_of_lt_of_le one_pos (le_max_left 1 _)

/-- Counterexample to claim C6 as stated: with one directory and two files
of 25 characters each, the column width is 27 and `per_line` is 2, yet the
single emitted row holds 3 entries, because the file loop's counter
restarts at 0 while the carry line still holds the trailing directory. -/
theorem ls_row_exceeds_per_line_bound :
    lsPerLine ["aaaaaaaaaaaaaaaaaaaaaaaaa"]
      ["bbbbbbbbbbbbbbbbbbbbbbbbb", "ccccccccccccccccccccccccc"] = 2 ∧
    (lsShort ["aaaaaaaaaaaaaaaaaaaaaaaaa"]
      ["bbbbbbbbbbbbbbbbbbbbbbbbb", "ccccccccccccccccccccccccc"]).map
        List.length = [3] := by decide

/-- The short-format rows flatten to the rendered directories followed by
the rendered files. -/
lemma lsShort_flatten (dirs files : List String) :
    (lsShort dirs files).flatten =
      dirs.map (fun d => ljust (d ++ "/") (lsMaxLen dirs files)) ++
        files.map (fun f => ljust f (lsMaxLen dirs files)) := by
  rw [lsShort_eq]
  set p := lsPerLine dirs files with hpdef
  set dr := dirs.map (fun d => ljust (d ++ "/") (lsMaxLen dirs files)) with hdr
  set fr := files.map (fun f => ljust f (lsMaxLen dirs files)) with hfr
  have h1 := packLoop_flatten p dr [] 0
  have h2 := packLoop_flatten p fr (packLoop p dr [] 0).2 0
  simp only [List.nil_append] at h1
  rw [List.flatten_append, List.flatten_append]
  split
  next hc =>
    rw [hc, List.append_nil] at h2
    simp only [List.flatten_nil, List.append_nil]
    rw [h2, ← List.append_assoc, h1]
  next hc =>
    simp only [List.flatten_cons, List.flatten_nil, List.append_nil]
    rw [List.append_assoc, h2, ← List.append_assoc, h1]

/-- Every emitted short-format row holds at most `2 * per_line - 1`
entries: flushed rows of the directory loop hold exactly `per_line`, and a
row mixing the carried partial directory group (at most `per_line - 1`
entries) with files is flushed after at most `per_line` more. -/
lemma lsShort_rows_le (dirs files : List String) :
    ∀ row ∈ lsShort dirs files, row.length ≤ 2 * lsPerLine dirs files - 1 := by
  have hp := one_le_lsPerLine dirs files
  rw [lsShort_eq]
  set p := lsPerLine dirs files with hpdef
  set dr := dirs.map (fun d => ljust (d ++ "/") (lsMaxLen dirs files)) with hdr
  set fr := files.map (fun f => ljust f (lsMaxLen dirs files)) with hfr
  have hb1 := packLoop_bound p p hp le_rfl dr [] 0 (by simp)
  have hb2 := packLoop_bound p ((packLoop p dr [] 0).2.length + p) hp (by omega)
    fr (packLoop p dr [] 0).2 0 (by simp)
  have hc1 : (packLoop p dr [] 0).2.length ≤ p - 1 := hb1.2
  intro row hrow
  rcases List.mem_append.mp hrow with hrow2 | hlast
  · rcases List.mem_append.mp hrow2 with hr1 | hr2
    · have := hb1.1 row hr1
      omega
    · have := hb2.1 row hr2
      omega
  · have hne : ¬ (packLoop p fr (packLoop p dr [] 0).2 0).2 = [] := by
      intro heq
      rw [if_pos heq] at hlast
      exact absurd hlast (List.not_mem_nil row)
    rw [if_neg hne] at hlast
    have hrc : row = (packLoop p fr (packLoop p dr [] 0).2 0).2 :=
      List.mem_singleton.mp hlast
    have h22 := hb2.2
    rw [hrc]
    omega

/-- Claim C6 (amended): in short format all directories are emitted before
all files, directories carry a `/` suffix, every entry is left-justified
to width `longest name + 2`, and rows are flushed after every
`per_line`-th directory and after every `per_line`-th file counted within
each group separately — so a row that continues the trailing partial
directory group with files can hold up to `2 * per_line - 1` entries,
rather than the claimed `per_line`. -/
theorem ls_short_format (dirs files : List String) :
    (lsShort dirs files).flatten =
      dirs.map (fun d => ljust (d ++ "/") (lsMaxLen dirs files)) ++
        files.map (fun f => ljust f (lsMaxLen dirs files)) ∧
    (∀ row ∈ lsShort dirs files, row.length ≤ 2 * lsPerLine dirs files - 1) :=
  ⟨lsShort_flatten dirs files, lsShort_rows_le dirs files⟩

/-- Witness for `ls_short_format` on a one-directory one-file listing. -/
theorem ls_short_format_witness :
    (lsShort ["a"] ["b"]).flatten = ["a/ ", "b  "] ∧
    (["a/ ", "b  "] : List String).length ≤ 2 * lsPerLine ["a"] ["b"] - 1 := by
  constructor
  · exact ((ls_short_format ["a"] ["b"]).1).trans (by decide)
  · exact (ls_short_format ["a"] ["b"]).2 ["a/ ", "b  "] (by decide)

lemma filter_dot_lengths (l : List String) :
    (l.filter (fun f => !pyStartswith f ".")).length +
      (l.filter (fun f => pyStartswith f ".")).length = l.length := by
  induction l with
  | nil => rfl
  | cons h t ih =>
    cases hd : pyStartswith h "." with
    | true => simp [List.filter_cons, hd]; omega
    | false => simp [List.filter_cons, hd]; omega

/-- Claim C8: for every host directory listing, the entries shown with
`-a` are a superset (by count) of the entries shown without it, and the
difference is exactly the dot-prefixed entries. -/
theorem ls_hidden_difference (allNames : List String) :
    (lsEntries allNames false).length +
        (allNames.filter (fun f => pyStartswith f ".")).length =
      (lsEntries allNames true).length ∧
    ∀ e, (e ∈ lsEntries allNames true ∧ e ∉ lsEntries allNames false) ↔
      (e ∈ allNames ∧ pyStartswith e "." = true) := by
  constructor
  · simpa [lsEntries] using filter_dot_lengths allNames
  · intro e
    cases hpe : pyStartswith e "." <;>
      simp [lsEntries, List.mem_filter, hpe]

/-- Witness for `ls_hidden_difference` on `[".hidden", "visible"]`. -/
theorem ls_hidden_difference_witness :
    ((".hidden" ∈ lsEntries [".hidden", "visible"] true ∧
        ".hidden" ∉ lsEntries [".hidden", "visible"] false) ↔
      (".hidden" ∈ ([".hidden", "visible"] : List String) ∧
        pyStartswith ".hidden" "." = true)) :=
  (ls_hidden_difference [".hidden", "visible"]).2 ".hidden"

lemma histInv_step (s : HistState) (e : HEvent) (h : histInv s) :
    histInv (hstep e s) := by
  obtain ⟨h0, h1⟩ := h
  cases e with
  | submit line =>
    simp only [hstep]
    split
    · exact ⟨h0, h1⟩
    · constructor <;> simp <;> omega
  | keyUp =>
    simp only [hstep]
    split
    next hcond =>
      obtain ⟨hne, hpos⟩ := hcond
      exact ⟨show (0 : ℤ) ≤ s.index - 1 by omega,
        show s.index - 1 ≤ (s.history.length : ℤ) by omega⟩
    next hcond => exact ⟨h0, h1⟩
  | keyDown =>
    simp only [hstep]
    split
    next hcond =>
      obtain ⟨hne, hlt⟩ := hcond
      exact ⟨show (0 : ℤ) ≤ s.index + 1 by omega,
        show s.index + 1 ≤ (s.history.length : ℤ) by omega⟩
    next hcond =>
      exact ⟨show (0 : ℤ) ≤ (s.history.length : ℤ) by omega,
        show (s.history.length : ℤ) ≤ (s.history.length : ℤ) by omega⟩

lemma submit_resets (s : HistState) (line : String) (h : pyStrip line ≠ "") :
    (hstep (.submit line) s).index =
      ((hstep (.submit line) s).history.length : ℤ) ∧
    histInv (hstep (.submit line) s) := by
  simp only [hstep]
  rw [if_neg h]
  exact ⟨rfl,
    show (0 : ℤ) ≤ ((s.history ++ [pyStrip line]).length : ℤ) by omega,
    show ((s.history ++ [pyStrip line]).length : ℤ) ≤
      ((s.history ++ [pyStrip line]).length : ℤ) by omega⟩

lemma histInv_foldl (post : List HEvent) :
    ∀ s : HistState, histInv s →
      histInv (post.foldl (fun s e => hstep e s) s) := by
  induction post with
  | nil => intro s h; exact h
  | cons e rest ih =>
    intro s h
    exact ih (hstep e s) (histInv_step s e h)

/-- Counterexample to claim C9 as stated: the initial session state is
reachable (empty event trace) and its cursor is `-1`, outside
`[0, len(history)]`. -/
theorem history_cursor_init_outside_range : ¬ histInv (runHist []) := by decide

/-- Claim C9 (amended): the cursor is initialised to `-1`, outside the
claimed range; the range `[0, len(history)]` is preserved by every
history event, recording a non-blank command resets the cursor to
`len(history)` and establishes the range, and hence every state whose
trace contains at least one recorded command satisfies the range. -/
theorem history_cursor_invariant :
    (∀ s e, histInv s → histInv (hstep e s)) ∧
    (∀ s line, pyStrip line ≠ "" →
      (hstep (.submit line) s).index =
        ((hstep (.submit line) s).history.length : ℤ) ∧
      histInv (hstep (.submit line) s)) ∧
    (∀ pre line post, pyStrip line ≠ "" →
      histInv (runHist (pre ++ HEvent.submit line :: post))) := by
  refine ⟨histInv_step, submit_resets, ?_⟩
  intro pre line post hline
  unfold runHist
  rw [List.foldl_append, List.foldl_cons]
  exact histInv_foldl post _ (submit_resets (runHist pre) line hline).2

/-- Witness for `history_cursor_invariant` on a concrete trace. -/
theorem history_cursor_invariant_witness :
    histInv (runHist [HEvent.keyUp, HEvent.submit "pwd", HEvent.keyUp]) :=
  history_cursor_invariant.2.2 [HEvent.keyUp] "pwd" [HEvent.keyUp] (by decide)

lemma lsLongDir_all_some (path : String) :
    ∀ (entries : List DirEntry) (e : DirEntry) (sz : Nat) (mt : String),
      e ∈ entries → e.statData = some (sz, mt) →
      (∀ x ∈ entries, x.statData ≠ none) →
      OutLine.out (longLine e sz mt) ∈ lsLongDir path entries := by
  intro entries
  induction entries with
  | nil => intro e sz mt he _ _; exact absurd he (List.not_mem_nil e)
  | cons x rest ih =>
    intro e sz mt he hst hall
    rcases List.mem_cons.mp he with rfl | he2
    · simp only [lsLongDir, hst]
      exact List.mem_cons_self _ _
    · have hx : x.statData ≠ none := hall x (List.mem_cons_self x rest)
      obtain ⟨sd, hsd⟩ := Option.ne_none_iff_exists'.mp hx
      simp only [lsLongDir, hsd]
      exact List.mem_cons_of_mem _
        (ih e sz mt he2 hst (fun y hy => hall y (List.mem_cons_of_mem x hy)))

lemma filter_kinds_le (entries : List DirEntry) :
    (entries.filter (fun x => x.kind = EKind.dir)).length +
      (entries.filter (fun x => x.kind = EKind.file)).length ≤ entries.length := by
  induction entries with
  | nil => simp
  | cons x rest ih =>
    cases hk : x.kind <;> simp [List.filter_cons, hk] <;> omega

lemma filter_kinds_lt (e : DirEntry) (hf : e.kind ≠ EKind.file)
    (hd : e.kind ≠ EKind.dir) :
    ∀ entries : List DirEntry, e ∈ entries →
      (entries.filter (fun x => x.kind = EKind.dir)).length +
        (entries.filter (fun x => x.kind = EKind.file)).length <
        entries.length := by
  intro entries
  induction entries with
  | nil => intro he; cases he
  | cons x rest ih =>
    intro he
    rcases List.mem_cons.mp he with rfl | he2
    · have hko : e.kind = EKind.other := by
        cases hk : e.kind
        · exact absurd hk hf
        · exact absurd hk hd
        · rfl
      have := filter_kinds_le rest
      simp [List.filter_cons, hko]
      omega
    · have := ih he2
      cases hk : x.kind <;> simp [List.filter_cons, hk] <;> omega

/-- Counterexample to claim C10 as stated: a broken symbolic link `b` in
`/d` is omitted from the short listing, but it does not appear in the
long listing either — `os.stat` raises and the long format emits only the
error line. -/
theorem ls_long_aborts_on_stat_failure :
    lsShortDir [⟨"b", EKind.other, none, false, false, false⟩] = [] ∧
    lsLongDir "/d" [⟨"b", EKind.other, none, false, false, false⟩] =
      [OutLine.err "Error: [Errno 2] No such file or directory: '/d/b'"] :=
  ⟨rfl, rfl⟩

/-- Claim C10 (amended): a directory entry that is neither a regular file
nor a directory is omitted from the short-format columned output — the
rendered entries are exactly the `isdir` entries followed by the `isfile`
entries, strictly fewer than the listed entries — and it does appear as a
line of the `ls -l` output of the same directory provided `os.stat`
succeeds on every listed entry; an entry whose `stat` fails (a broken
symbolic link) instead aborts the long listing with an error line. -/
theorem ls_short_omits_other_entries (path : String) (entries : List DirEntry)
    (e : DirEntry) (sz : Nat) (mt : String) (he : e ∈ entries)
    (hf : e.kind ≠ EKind.file) (hd : e.kind ≠ EKind.dir)
    (hst : e.statData = some (sz, mt)) :
    (lsShortDir entries).flatten.length =
      (entries.filter (fun x => x.kind = EKind.dir)).length +
        (entries.filter (fun x => x.kind = EKind.file)).length ∧
    (lsShortDir entries).flatten.length < entries.length ∧
    ((∀ x ∈ entries, x.statData ≠ none) →
      OutLine.out (longLine e sz mt) ∈ lsLongDir path entries) := by
  have hdef : lsShortDir entries =
      lsShort ((entries.filter (fun x => x.kind = EKind.dir)).map (fun x => x.name))
        ((entries.filter (fun x => x.kind = EKind.file)).map (fun x => x.name)) := rfl
  have hlen : (lsShortDir entries).flatten.length =
      (entries.filter (fun x => x.kind = EKind.dir)).length +
        (entries.filter (fun x => x.kind = EKind.file)).length := by
    rw [hdef, lsShort_flatten, List.length_append, List.length_map, List.length_map,
      List.length_map, List.length_map]
  refine ⟨hlen, ?_, lsLongDir_all_some path entries e sz mt he hst⟩
  rw [hlen]
  exact filter_kinds_lt e hf hd entries he

/-- Witness for `ls_short_omits_other_entries`: a socket-like entry with a
successful `stat` is omitted from the short rows yet printed by `-l`. -/
theorem ls_short_omits_other_entries_witness :
    (lsShortDir [⟨"s", EKind.other, some (0, "2024-01-01 00:00"),
        true, true, false⟩]).flatten.length <
      ([⟨"s", EKind.other, some (0, "2024-01-01 00:00"),
        true, true, false⟩] : List DirEntry).length ∧
    OutLine.out (longLine ⟨"s", EKind.other, some (0, "2024-01-01 00:00"),
        true, true, false⟩ 0 "2024-01-01 00:00") ∈
      lsLongDir "/d" [⟨"s", EKind.other, some (0, "2024-01-01 00:00"),
        true, true, false⟩] :=
  ⟨(ls_short_omits_other_entries "/d" _ _ 0 "2024-01-01 00:00"
      (List.mem_cons_self _ _) (by decide) (by decide) rfl).2.1,
   (ls_short_omits_other_entries "/d" _ _ 0 "2024-01-01 00:00"
      (List.mem_cons_self _ _) (by decide) (by decide) rfl).2.2 (by decide)⟩

lemma psEmit_all_some :
    ∀ procs : List Proc, (∀ p ∈ procs, p.cpu_percent ≠ none) →
      psEmit procs =
        procs.map (fun p => OutLine.out (psRow p (p.cpu_percent.getD 0))) := by
  intro procs
  induction procs with
  | nil => intro _; rfl
  | cons p rest ih =>
    intro hall
    have hp : p.cpu_percent ≠ none := hall p (List.mem_cons_self p rest)
    obtain ⟨c, hc⟩ := Option.ne_none_iff_exists'.mp hp
    simp only [psEmit, hc, List.map_cons, Option.getD_some]
    rw [ih (fun y hy => hall y (List.mem_cons_of_mem p hy))]

/-- Counterexample to claim C7 as stated: a process whose CPU percent is
`None` sorts as 0, but formatting it raises `TypeError`, so its row is
replaced by an error line instead of being emitted with its fields. -/
theorem ps_none_cpu_aborts :
    show_processes [⟨1, "x", "u", none, none⟩] =
      [OutLine.out psHeader,
       OutLine.err "Error: unsupported format string passed to NoneType.__format__"] :=
  rfl

/-- Claim C7 (amended): `ps` stably sorts the provider's process list
descending by CPU percent with `None` counted as 0 and emits a header row
followed by the first `min(10, n)` processes, each with PID, name, user,
CPU percent and memory in MB to one decimal — provided every process among
those ten has a non-`None` CPU percent; a `None` there aborts the rows
with an error line. -/
theorem ps_sorted_top_ten (procs : List Proc) :
    (List.insertionSort (fun a b => psKey b ≤ psKey a) procs).Perm procs ∧
    List.Sorted (fun a b => psKey b ≤ psKey a)
      (List.insertionSort (fun a b => psKey b ≤ psKey a) procs) ∧
    ((List.insertionSort (fun a b => psKey b ≤ psKey a) procs).take 10).length =
      min 10 procs.length ∧
    ((∀ p ∈ (List.insertionSort (fun a b => psKey b ≤ psKey a) procs).take 10,
        p.cpu_percent ≠ none) →
      show_processes procs =
        OutLine.out psHeader ::
          ((List.insertionSort (fun a b => psKey b ≤ psKey a) procs).take 10).map
            (fun p => OutLine.out (psRow p (p.cpu_percent.getD 0)))) := by
  refine ⟨List.perm_insertionSort _ procs, List.sorted_insertionSort _ procs, ?_, ?_⟩
  · rw [List.length_take, List.length_insertionSort]
  · intro hall
    simp only [show_processes]
    rw [psEmit_all_some _ hall]

/-- Witness for `ps_sorted_top_ten` on a concrete two-process list. -/
theorem ps_sorted_top_ten_witness :
    show_processes [⟨1, "x", "u", some 1, none⟩,
        ⟨2, "y", "v", some 2, some 1048576⟩] =
      OutLine.out psHeader ::
        ((List.insertionSort (fun a b => psKey b ≤ psKey a)
            [⟨1, "x", "u", some 1, none⟩,
             ⟨2, "y", "v", some 2, some 1048576⟩]).take 10).map
          (fun p => OutLine.out (psRow p (p.cpu_percent.getD 0))) :=
  (ps_sorted_top_ten _).2.2.2 (by decide)
